import Mathlib

/-!
Verification development for the heretical-game core logic.

Shallow embedding of the scoring / verdict / council-reaction / question-pool
subsystems of the repository.  JavaScript numbers are modelled as `ℚ` where
fractional values occur (severity multipliers, heresy points, reaction
scores), as `Int` for the per-council offense counters, and as `Nat` for
sizes and character codes.  Strings are Lean `String`s; JS `undefined`
fields are `Option`s; a field whose JS default relies on falsiness of the
empty string or of `0` is noted at its definition.
-/

/-! ### Verdict calculator (`vite.config.js`, class `VerdictCalculator`) -/

inductive VerdictType where
  | faithful
  | borderline
  | doomed
deriving DecidableEq

/-- A `{ min, max }` threshold range from `VerdictCalculator.config.thresholds`. -/
structure ScoreRange where
  min : ℚ
  max : ℚ

/-- The `faithful` and `borderline` entries of `config.thresholds`.  The source
also stores a `doomed` range `{ min: -Infinity, max: -5 }`, but
`determineVerdictType` never reads it (doomed is the `else` branch), so it is
not represented here. -/
structure Thresholds where
  faithful : ScoreRange
  borderline : ScoreRange

/-- Default thresholds from the `VerdictCalculator` constructor. -/
def defaultThresholds : Thresholds :=
  { faithful := { min := -2, max := 2 }
    borderline := { min := -5, max := 5 } }

/-- Embeds `VerdictCalculator.determineVerdictType(score)`. -/
def determineVerdictType (t : Thresholds) (score : ℚ) : VerdictType :=
  if t.faithful.min ≤ score ∧ score ≤ t.faithful.max then .faithful
  else if t.borderline.min ≤ score ∧ score ≤ t.borderline.max then .borderline
  else .doomed

/-- The `lastReaction` object read by `calculateCouncilScore`; only its
`severity` field is consulted.  `severity` is `Option String` because the
reaction objects written by `CouncilManager.processCouncilReaction` carry no
`severity` field at all (JS `undefined`). -/
structure VLastReaction where
  severity : Option String

/-- A council as consumed by `VerdictCalculator.calculateCouncilScore`:
only `lastReaction` is read. -/
structure VCouncil where
  lastReaction : Option VLastReaction

/-- Embeds `council.lastReaction?.severity || 'medium'`: a missing reaction, a
missing severity field, or an empty (falsy) severity string all yield
`"medium"`. -/
def effectiveSeverity (c : VCouncil) : String :=
  match c.lastReaction with
  | none => "medium"
  | some r =>
    match r.severity with
    | none => "medium"
    | some s => if s = "" then "medium" else s

/-- Embeds `severityMultipliers[severity] || 1`: the lookup table
`{ low: 1, medium: 1.5, high: 2, severe: 3 }` with unknown keys falling back
to `1`. -/
def severityMultiplier (s : String) : ℚ :=
  if s = "low" then 1
  else if s = "medium" then 3 / 2
  else if s = "high" then 2
  else if s = "severe" then 3
  else 1

/-- Embeds `VerdictCalculator.calculateCouncilScore(councilsOffended)`:
`baseScore = 0`, each offended council adds `penaltyPerCouncil (-2) *
multiplier`, and the total is capped below at `-10` via `Math.max`. -/
def calculateCouncilScore (councilsOffended : List VCouncil) : ℚ :=
  max (-10)
    (councilsOffended.foldl
      (fun acc c => acc + (-2) * severityMultiplier (effectiveSeverity c)) 0)

/-! ### Fisher-Yates shuffle (`question-manager.js`, `shuffleArray`)

The JS loop `for (let i = length-1; i > 0; i--)` draws
`j = Math.floor(Math.random() * (i + 1))` and swaps `array[i]` with
`array[j]`.  The random draws are modelled by a function `rand : Nat → Nat`
giving the drawn index for each loop counter `i`; since `Math.random() < 1`,
the real draw always satisfies `rand i ≤ i`, and `swapIdx` leaves the list
unchanged on an out-of-range index, so no hypothesis on `rand` is needed. -/

/-- The destructuring swap `[array[i], array[j]] = [array[j], array[i]]`:
both reads happen before both writes. -/
def swapIdx (l : List α) (i j : Nat) : List α :=
  match l[i]?, l[j]? with
  | some a, some b => (l.set i b).set j a
  | _, _ => l

/-- The loop of `shuffleArray`, counting `i` down from `length - 1` to `1`. -/
def fisherYatesAux (rand : Nat → Nat) : Nat → List α → List α
  | 0, l => l
  | i + 1, l => fisherYatesAux rand i (swapIdx l (i + 1) (rand (i + 1)))

/-- Embeds `QuestionManager.shuffleArray(array)`. -/
def shuffleArray (rand : Nat → Nat) (l : List α) : List α :=
  fisherYatesAux rand (l.length - 1) l

/-! ### Council manager (`council-manager.js`, class `CouncilManager`)

State: the `councils` map (modelled as a list of records keyed by `id`; a JS
`Map` has unique keys, and in-place mutation of a council object becomes
replacement of the matching entry) and the `offendedCouncils` set (a list of
ids).  Reaction history, notifications and the per-question
`councilReactions` map are not consulted by any claim and are omitted.
Council reaction scores are JS numbers, modelled as `ℚ`; the `offendedCount`
counter and the `tolerance` threshold are modelled as `Int` so that the
`Math.max(0, ...)` clamp is explicit. -/

/-- The `lastReaction` record written by `processCouncilReaction`
(`{ score, offended, timestamp }`; the timestamp is not modelled). -/
structure CouncilReaction where
  score : ℚ
  offended : Bool
deriving DecidableEq

/-- A council record as held in `this.councils`. -/
structure Council where
  id : String
  tolerance : Int
  offendedCount : Int
  lastReaction : Option CouncilReaction
deriving DecidableEq

/-- Embeds `calculateSeverity(score, council)` of `council-manager.js`: reads the
council's (already updated) `offendedCount`. -/
def councilCalculateSeverity (score : ℚ) (c : Council) : String :=
  let toleranceFactor : Int := max 0 (c.offendedCount - c.tolerance + 1)
  let totalSeverity : ℚ := |score| + (toleranceFactor : ℚ)
  if 5 ≤ totalSeverity then "severe"
  else if 3 ≤ totalSeverity then "high"
  else if 1 ≤ totalSeverity then "medium"
  else "low"

/-- The counter update in `processCouncilReaction`:
`if (score < 0) council.offendedCount++; else if (score > 0 &&
council.offendedCount > 0) council.offendedCount = Math.max(0,
council.offendedCount - 1);`. -/
def updatedOffendedCount (count : Int) (score : ℚ) : Int :=
  if score < 0 then count + 1
  else if 0 < score ∧ 0 < count then max 0 (count - 1)
  else count

/-- The result record returned by `processCouncilReaction`. -/
structure ReactionResult where
  score : ℚ
  offended : Bool
  newlyOffended : Bool
  severity : String
deriving DecidableEq

/-- Embeds `CouncilManager.processCouncilReaction(council, score)`.  The read of
`this.offendedCouncils` is passed explicitly as `offendedSet`; the function
returns the updated council together with the reaction record. -/
def processCouncilReaction (offendedSet : List String) (c : Council) (score : ℚ) :
    Council × ReactionResult :=
  let wasOffended := offendedSet.contains c.id
  let newCount := updatedOffendedCount c.offendedCount score
  let nowOffended := decide (c.tolerance ≤ newCount)
  let c' : Council :=
    { c with
      offendedCount := newCount
      lastReaction := some { score := score, offended := nowOffended } }
  (c', { score := score
         offended := nowOffended
         newlyOffended := nowOffended && !wasOffended
         severity := councilCalculateSeverity score c' })

/-- An `option` entry of a multiple-choice question (`{ text, value }`). -/
structure ChoiceOption where
  text : String
  value : String
deriving DecidableEq

/-- A submitted answer: JS passes either a boolean or a string. -/
inductive Answer where
  | bool (b : Bool)
  | str (s : String)
deriving DecidableEq

/-- A per-council reaction map from the question data: an object whose keys
are `'agree'`/`'disagree'` (binary questions) or option values (multiple
choice), with numeric reaction scores. -/
structure ReactionMap where
  entries : List (String × ℚ)
deriving DecidableEq

/-- Embeds `reactionMap[key] || 0`. -/
def reactionValue (rm : ReactionMap) (key : String) : ℚ :=
  ((rm.entries.find? (fun p => p.1 == key)).map (fun p => p.2)).getD 0

/-- Embeds `reactionMap[key] !== undefined`. -/
def reactionDefined (rm : ReactionMap) (key : String) : Bool :=
  (rm.entries.find? (fun p => p.1 == key)).isSome

/-- A question as consumed by `CouncilManager.processAnswer`: its `type`,
its `options` array (absent when not an array), and its `councils` object
(absent when falsy), an association of council ids to reaction maps. -/
structure CMQuestion where
  id : String
  qtype : String
  options : Option (List ChoiceOption)
  councils : Option (List (String × ReactionMap))
deriving DecidableEq

/-- The `score` computed for one council entry inside `processAnswer`:
starts at `0`; the `binary` branch reads `agree`/`disagree`, the
`multiple` branch reads `reactionMap[answer]` when the answer matches an
option value.  A boolean answer never strictly equals a string option
value, so in the `multiple` branch it leaves the score at `0`. -/
def entryScore (q : CMQuestion) (answer : Answer) (rm : ReactionMap) : ℚ :=
  if q.qtype = "binary" then
    if answer = .bool true ∨ answer = .str "agree" then reactionValue rm "agree"
    else reactionValue rm "disagree"
  else if q.qtype = "multiple" ∧ q.options.isSome then
    match answer with
    | .str s =>
      if ((q.options.getD []).any (fun o => o.value == s)) ∧ reactionDefined rm s then
        reactionValue rm s
      else 0
    | .bool _ => 0
  else 0

/-- The state of a `CouncilManager`. -/
structure CMState where
  councils : List Council
  offendedSet : List String
deriving DecidableEq

/-- In-place mutation of the council object held in the `councils` map,
modelled as replacement of the entry with the matching id. -/
def updateCouncil (cs : List Council) (c' : Council) : List Council :=
  cs.map (fun c => if c.id == c'.id then c' else c)

/-- The `Object.entries(question.councils).forEach` loop body of
`processAnswer`: for each `(councilId, reactionMap)` pair, look the council
up (skip unknown ids), compute the score, run `processCouncilReaction`,
and if the reaction is offended and the council is not yet in
`offendedCouncils`, add it and report it.  Returns the final state and the
ids of the newly offended councils in iteration order. -/
def processAnswerEntries (q : CMQuestion) (answer : Answer) :
    CMState → List (String × ReactionMap) → CMState × List String
  | s, [] => (s, [])
  | s, (councilId, rm) :: rest =>
    match s.councils.find? (fun c => c.id == councilId) with
    | none => processAnswerEntries q answer s rest
    | some c =>
      let score := entryScore q answer rm
      let c' := (processCouncilReaction s.offendedSet c score).1
      let reaction := (processCouncilReaction s.offendedSet c score).2
      let newlyHere := reaction.offended && !(s.offendedSet.contains councilId)
      let s' : CMState :=
        { councils := updateCouncil s.councils c'
          offendedSet := if newlyHere then s.offendedSet ++ [councilId] else s.offendedSet }
      let remaining := processAnswerEntries q answer s' rest
      (remaining.1, (if newlyHere then [councilId] else []) ++ remaining.2)

/-- Embeds `CouncilManager.processAnswer(question, answer)`: returns `[]` without
touching the state when `question.councils` is falsy. -/
def processAnswer (s : CMState) (q : CMQuestion) (answer : Answer) :
    CMState × List String :=
  match q.councils with
  | none => (s, [])
  | some entries => processAnswerEntries q answer s entries

/-- Embeds `CouncilManager.reset()`: clears `offendedCouncils` and zeroes each
council's `offendedCount` and `lastReaction`. -/
def councilReset (s : CMState) : CMState :=
  { councils := s.councils.map
      (fun c => { c with offendedCount := 0, lastReaction := none })
    offendedSet := [] }

/-- A whole session: fold `processAnswer` over a list of question/answer
pairs, collecting the newly-offended list returned by each call. -/
def runAnswers : CMState → List (CMQuestion × Answer) → CMState × List (List String)
  | s, [] => (s, [])
  | s, (q, a) :: rest =>
    let step := processAnswer s q a
    let rest' := runAnswers step.1 rest
    (rest'.1, step.2 :: rest'.2)

/-! ### Question manager (`question-manager.js`, class `QuestionManager`) -/

/-- An element of a question's `options` array: binary questions store plain
strings, multiple-choice questions store `{ text, value }` objects. -/
inductive OptionItem where
  | plain (s : String)
  | valued (text value : String)
deriving DecidableEq

/-- A question record as consumed by `QuestionManager`.  `options` is `none`
when the JS field is not an array; `heresyPoints = 0` encodes a falsy JS
value (absent or `0`), which `calculateCouncilReactions` replaces by `1`;
`council = ""` encodes a falsy (absent) `council` field. -/
structure QuestionQM where
  id : String
  text : String
  qtype : String
  options : Option (List OptionItem)
  correctAnswer : String
  difficulty : String
  council : String
  heresyPoints : ℚ
  timeLimit : Nat
deriving DecidableEq

/-- Embeds `QuestionManager.getBuiltInQuestions()`: the five built-in fallback
questions (explanation/context/tags fields are not modelled; multiple-choice
options keep their `text`/`value` pairs). -/
def getBuiltInQuestions : List QuestionQM :=
  [ { id := "builtin_001"
      text := "The Earth revolves around the Sun, not the other way around."
      qtype := "binary"
      options := some [.plain "Yes", .plain "No"]
      correctAnswer := "Yes"
      difficulty := "easy"
      council := "Scientific Community"
      heresyPoints := 1
      timeLimit := 30 }
  , { id := "builtin_002"
      text := "The Bible should be translated into common languages so everyone can read it."
      qtype := "binary"
      options := some [.plain "Yes", .plain "No"]
      correctAnswer := "Yes"
      difficulty := "medium"
      council := "Protestant Reformation"
      heresyPoints := 2
      timeLimit := 30 }
  , { id := "builtin_003"
      text := "Kings derive their authority from the consent of the governed, not divine right."
      qtype := "binary"
      options := some [.plain "Yes", .plain "No"]
      correctAnswer := "Yes"
      difficulty := "hard"
      council := "Political Authority"
      heresyPoints := 3
      timeLimit := 45 }
  , { id := "builtin_004"
      text := "Women should be allowed to receive higher education and hold academic positions."
      qtype := "binary"
      options := some [.plain "Yes", .plain "No"]
      correctAnswer := "Yes"
      difficulty := "medium"
      council := "Academic Institution"
      heresyPoints := 3 / 2
      timeLimit := 30 }
  , { id := "builtin_005"
      text := "Which method is most reliable for understanding the natural world?"
      qtype := "multiple-choice"
      options := some
        [ .valued "Scriptural interpretation" "scripture"
        , .valued "Scientific observation" "science"
        , .valued "Philosophical reasoning" "philosophy"
        , .valued "Religious revelation" "revelation" ]
      correctAnswer := "science"
      difficulty := "medium"
      council := "Scientific Community"
      heresyPoints := 2
      timeLimit := 45 } ]

/-- The valid type list of `processQuestions`. -/
def validTypes : List String := ["binary", "multiple-choice", "multiple"]

/-- The per-question validation filter inside `processQuestions`: requires a
truthy `id` and `text`, a type in `validTypes` (a falsy type is not in the
list, so the explicit `!question.type` check is subsumed), and an `options`
array for multiple-choice and binary questions. -/
def validQuestion (q : QuestionQM) : Bool :=
  if q.id == "" || q.text == "" then false
  else if !(validTypes.contains q.qtype) then false
  else if (q.qtype == "multiple-choice" || q.qtype == "multiple") && q.options.isNone then false
  else if q.qtype == "binary" && q.options.isNone then false
  else true

/-- The caching / shuffling configuration of `QuestionManager` that
`processQuestions` consults.  `maxQuestions = 0` encodes the falsy JS
default `null` (the slice is skipped either way). -/
structure QMConfig where
  shuffleQuestions : Bool
  maxQuestions : Nat
deriving DecidableEq

/-- Embeds `QuestionManager.processQuestions(questions)`: filter invalid records,
shuffle in place when enabled, and slice to `maxQuestions` when that limit
is truthy and exceeded. -/
def processQuestions (cfg : QMConfig) (rand : Nat → Nat) (qs : List QuestionQM) :
    List QuestionQM :=
  let validQuestions := qs.filter validQuestion
  let shuffled := if cfg.shuffleQuestions then shuffleArray rand validQuestions
                  else validQuestions
  if cfg.maxQuestions ≠ 0 ∧ cfg.maxQuestions < shuffled.length then
    shuffled.take cfg.maxQuestions
  else shuffled

/-- The outcome of the external fetch in `loadFromExternalSource`: either the
parsed question array or a thrown error (HTTP failure, network failure, or
`Invalid questions data format`). -/
def ExternalLoad := Except String (List QuestionQM)

/-- Embeds `QuestionManager.loadQuestions()`: on success processes the fetched
questions; on any load error falls back to the processed built-in list and
reports `fallback: true` in the `loadingCompleted` event.  The returned
flag is that `fallback` marker; no error escapes to the caller. -/
def loadQuestions (cfg : QMConfig) (rand : Nat → Nat) (external : ExternalLoad) :
    List QuestionQM × Bool :=
  match external with
  | .ok qs => (processQuestions cfg rand qs, false)
  | .error _ => (processQuestions cfg rand getBuiltInQuestions, true)

/-- The `isCorrect` test in `calculateCouncilReactions`:
`answer === question.correctAnswer || (typeof answer === 'boolean' &&
answer === (question.correctAnswer === 'Yes'))`.  A string answer is
compared to `correctAnswer`; a boolean answer is compared to
`correctAnswer === 'Yes'`. -/
def qmIsCorrect (q : QuestionQM) (answer : Answer) : Bool :=
  match answer with
  | .str s => s == q.correctAnswer
  | .bool b => b == (q.correctAnswer == "Yes")

/-- Embeds `question.heresyPoints || 1`. -/
def effectiveHeresyPoints (q : QuestionQM) : ℚ :=
  if q.heresyPoints = 0 then 1 else q.heresyPoints

/-- Embeds `QuestionManager.calculateSeverity(score)` (distinct from the council
manager's function of the same JS name). -/
def qmCalculateSeverity (score : ℚ) : String :=
  if 2 ≤ score then "pleased"
  else if 0 ≤ score then "neutral"
  else if -1 ≤ score then "concerned"
  else if -3 ≤ score then "offended"
  else "severely-offended"

/-- A reaction record produced by `calculateCouncilReactions`. -/
structure QMReaction where
  score : ℚ
  offended : Bool
  severity : String
  isCorrect : Bool
deriving DecidableEq

/-- Embeds `QuestionManager.calculateCouncilReactions(question, answer)`: empty
when the question has no (truthy) `council`; otherwise a single entry for
`question.council` with `score = baseScore * heresyPoints`, where
`baseScore` is `1` for a correct and `-1` for an incorrect answer. -/
def calculateCouncilReactions (q : QuestionQM) (answer : Answer) :
    List (String × QMReaction) :=
  if q.council = "" then []
  else
    let isCorrect := qmIsCorrect q answer
    let baseScore : ℚ := if isCorrect then 1 else -1
    let score := baseScore * effectiveHeresyPoints q
    [(q.council,
      { score := score
        offended := decide (baseScore < 0)
        severity := qmCalculateSeverity score
        isCorrect := isCorrect })]

/-! ### State manager encryption (`state-manager.js`, `encrypt` / `decrypt`)

JS strings are modelled as lists of UTF-16 code units (`List Nat`,
`charCodeAt` values).  The browser builtins `btoa`/`atob` are standard
base64 over Latin-1 strings; `btoa` throws (`none` here) when any code unit
exceeds 255.  `JSON.stringify`/`JSON.parse` are host builtins outside the
repository; the functions below operate on the serialized text, so the
round-trip statement is about recovering the exact serialized string. -/

/-- Embeds `key.charCodeAt(i % key.length)`. -/
def keyCodeAt (key : List Nat) (i : Nat) : Nat :=
  key.getD (i % key.length) 0

/-- The XOR loop shared by `encrypt` and `decrypt`:
`out[i] = s.charCodeAt(i) ^ key.charCodeAt(i % key.length)`, with `i`
starting at the given offset. -/
def xorCycle (key : List Nat) : Nat → List Nat → List Nat
  | _, [] => []
  | i, c :: rest => (c ^^^ keyCodeAt key i) :: xorCycle key (i + 1) rest

/-- The base64 alphabet `A-Z a-z 0-9 + /` as character codes. -/
def base64Alphabet : List Nat :=
  [65, 66, 67, 68, 69, 70, 71, 72, 73, 74, 75, 76, 77, 78, 79, 80, 81, 82,
   83, 84, 85, 86, 87, 88, 89, 90,
   97, 98, 99, 100, 101, 102, 103, 104, 105, 106, 107, 108, 109, 110, 111,
   112, 113, 114, 115, 116, 117, 118, 119, 120, 121, 122,
   48, 49, 50, 51, 52, 53, 54, 55, 56, 57, 43, 47]

/-- The character code for a 6-bit group. -/
def b64Char (s : Nat) : Nat :=
  base64Alphabet.getD s 0

/-- The 6-bit group for a character code (used by decoding). -/
def b64Index (c : Nat) : Nat :=
  base64Alphabet.findIdx (fun x => x == c)

/-- Base64-encode a byte list: groups of three bytes become four characters;
a trailing group of one or two bytes is padded with `'='` (code 61). -/
def b64EncodeBytes : List Nat → List Nat
  | [] => []
  | [a] => [b64Char (a / 4), b64Char (a % 4 * 16), 61, 61]
  | [a, b] => [b64Char (a / 4), b64Char (a % 4 * 16 + b / 16), b64Char (b % 16 * 4), 61]
  | a :: b :: c :: rest =>
    b64Char (a / 4) :: b64Char (a % 4 * 16 + b / 16) ::
      b64Char (b % 16 * 4 + c / 64) :: b64Char (c % 64) :: b64EncodeBytes rest

/-- Base64-decode a character list (the inverse grouping; `'='` padding on
the third or fourth character marks a short final group). -/
def b64DecodeChars : List Nat → List Nat
  | c1 :: c2 :: c3 :: c4 :: rest =>
    if c3 == 61 then [b64Index c1 * 4 + b64Index c2 / 16]
    else if c4 == 61 then
      [b64Index c1 * 4 + b64Index c2 / 16, b64Index c2 % 16 * 16 + b64Index c3 / 4]
    else
      (b64Index c1 * 4 + b64Index c2 / 16) ::
        (b64Index c2 % 16 * 16 + b64Index c3 / 4) ::
        (b64Index c3 % 4 * 64 + b64Index c4) :: b64DecodeChars rest
  | _ => []

/-- The browser `btoa`: defined on Latin-1 input only; throws
(`InvalidCharacterError`, here `none`) when a code unit exceeds 255. -/
def btoa (s : List Nat) : Option (List Nat) :=
  if ∀ c ∈ s, c < 256 then some (b64EncodeBytes s) else none

/-- The browser `atob` restricted to well-formed base64 input (the only way
it is reached below). -/
def atob (s : List Nat) : List Nat :=
  b64DecodeChars s

/-- The value produced by `StateManager.encrypt`: either the input object
passed through unchanged (falsy key) or the `{ encrypted: true, data }`
wrapper around the base64 payload. -/
inductive EncryptedData where
  | plain (serialized : List Nat)
  | encObj (payload : List Nat)
deriving DecidableEq

/-- The value produced by `StateManager.decrypt`: either its argument
returned unchanged (not encrypted, or falsy key) or the decrypted
serialized text handed to `JSON.parse`. -/
inductive DecryptedData where
  | raw (d : EncryptedData)
  | parsed (serialized : List Nat)
deriving DecidableEq

/-- Embeds `StateManager.encrypt(data)` on the serialized text of `data`: with a
falsy key the input is returned as-is; otherwise the text is XORed with the
cycled key and base64-encoded via `btoa` (`none` models the `btoa` throw on
non-Latin-1 XOR output). -/
def encrypt (key : List Nat) (serialized : List Nat) : Option EncryptedData :=
  if key.isEmpty then some (.plain serialized)
  else (btoa (xorCycle key 0 serialized)).map .encObj

/-- Embeds `StateManager.decrypt(data)`: a value without the `encrypted` marker, or
with a falsy key, is returned unchanged; otherwise the payload is
base64-decoded and XORed back, and the result goes to `JSON.parse`. -/
def decrypt (key : List Nat) : EncryptedData → DecryptedData
  | .plain d => .raw (.plain d)
  | .encObj d => if key.isEmpty then .raw (.encObj d) else .parsed (xorCycle key 0 (atob d))

/-! ### Question pool sessions (pool exhaustion and reset)

Modelled from the spec: the session-start logic (`getFreshQuestions`,
`markQuestionAsUsed`, `resetUsedQuestions` and the `wasReset` detection)
lives in `heretical-game.html`, which is not among the provided sources;
only the fix notes (`src/unnamed/part_000`) quote its reset-detection code.
The model follows spec §4.1 (`beginSession`) and that quoted excerpt:
questions are keyed `"{difficulty}_{id}"` in the persisted
`UsedQuestionSet`; an exhausted filtered set with a non-empty pool clears
the used set and re-filters; `wasReset` is
`usedBefore > 0 && fresh.length === all.length && usedAfter === 0`. -/

/-- The persisted key of a question. -/
def usedKey (difficulty : String) (qid : String) : String :=
  difficulty ++ "_" ++ qid

/-- Modelled from the spec: `getFreshQuestions(allQuestions, difficulty)` —
the questions of the pool whose keys are not in the used set. -/
def getFreshQuestions (pool : List String) (difficulty : String)
    (used : List String) : List String :=
  pool.filter (fun q => !(used.contains (usedKey difficulty q)))

/-- The result of `beginSession`. -/
structure SessionStart where
  queue : List String
  used : List String
  poolWasReset : Bool
deriving DecidableEq

/-- Modelled from the spec: `beginSession(difficulty)` — filter the pool
against the persisted used set; on exhaustion (empty filtered set, non-empty
pool) clear the used set and re-filter; shuffle the eligible questions into
the session queue; flag `poolWasReset` per the quoted detection code. -/
def beginSession (rand : Nat → Nat) (pool : List String) (difficulty : String)
    (used : List String) : SessionStart :=
  let usedBefore := used.length
  let fresh := getFreshQuestions pool difficulty used
  let exhausted := fresh.isEmpty && !pool.isEmpty
  let usedAfter := if exhausted then [] else used
  let freshAfter := if exhausted then getFreshQuestions pool difficulty [] else fresh
  let wasReset := decide (0 < usedBefore) && (freshAfter.length == pool.length)
    && (usedAfter.length == 0)
  { queue := shuffleArray rand freshAfter
    used := usedAfter
    poolWasReset := wasReset }

/-- Scenario-B style fixture: the council `nicaea` with tolerance 3. -/
def nicaeaCouncil : Council :=
  { id := "nicaea", tolerance := 3, offendedCount := 0, lastReaction := none }

/-- A binary question targeting `nicaea` (`agree` pleases, `disagree`
offends). -/
def nicaeaQuestion : CMQuestion :=
  { id := "q1", qtype := "binary", options := none
    councils := some [("nicaea", { entries := [("agree", 1), ("disagree", -1)] })] }

/-- Initial council-manager state for the scenario. -/
def nicaeaState : CMState :=
  { councils := [nicaeaCouncil], offendedSet := [] }

/-- Three incorrect (disagreeing) answers to the `nicaea` question. -/
def nicaeaCalls : List (CMQuestion × Answer) :=
  [(nicaeaQuestion, .str "no"), (nicaeaQuestion, .str "no"), (nicaeaQuestion, .str "no")]

/-- Fixture for C8: an offended council whose count is about to drop back
below tolerance. -/
def dropCouncil : Council :=
  { id := "x", tolerance := 1, offendedCount := 1, lastReaction := none }

/-- A question whose `agree` answer pleases `x` (positive score). -/
def dropQuestion : CMQuestion :=
  { id := "q2", qtype := "binary", options := none
    councils := some [("x", { entries := [("agree", 1), ("disagree", -1)] })] }

/-- State in which `x` is already offended. -/
def dropState : CMState :=
  { councils := [dropCouncil], offendedSet := ["x"] }

/-- One correct (agreeing) answer: the score is positive, so `x`'s count
drops from 1 to 0, below its tolerance. -/
def dropCalls : List (CMQuestion × Answer) :=
  [(dropQuestion, .str "agree")]

/-- Fixture for C2: a hard question worth 3 offense points. -/
def c2Question : QuestionQM :=
  { id := "q-auth"
    text := "Kings derive their authority from the consent of the governed, not divine right."
    qtype := "binary"
    options := some [.plain "Yes", .plain "No"]
    correctAnswer := "Yes"
    difficulty := "hard"
    council := "political-authority"
    heresyPoints := 3
    timeLimit := 45 }

/-- Fixture for C2: the targeted council, far from its threshold. -/
def c2Council : Council :=
  { id := "political-authority", tolerance := 99, offendedCount := 0, lastReaction := none }

/-! ### Theorems -/

theorem severityMultiplier_pos (s : String) : 0 < severityMultiplier s := by
  unfold severityMultiplier
  split_ifs <;> norm_num

theorem councilScore_foldl_le (cs : List VCouncil) :
    ∀ acc : ℚ,
      cs.foldl (fun acc c => acc + (-2) * severityMultiplier (effectiveSeverity c)) acc ≤ acc := by
  induction cs with
  | nil => intro acc; simp
  | cons c rest ih =>
    intro acc
    have h1 := ih (acc + (-2) * severityMultiplier (effectiveSeverity c))
    have h2 := severityMultiplier_pos (effectiveSeverity c)
    simp only [List.foldl_cons]
    nlinarith

/-- C10: the council score term of the verdict calculator always lies in
`[-10, 0]`: every offended council contributes a non-positive amount
(`-2` times a positive multiplier) and the sum is clamped at `-10`. -/
theorem C10_councilScore_bounded (councilsOffended : List VCouncil) :
    -10 ≤ calculateCouncilScore councilsOffended ∧
      calculateCouncilScore councilsOffended ≤ 0 := by
  unfold calculateCouncilScore
  constructor
  · exact le_max_left _ _
  · have h := councilScore_foldl_le councilsOffended 0
    have : (-10 : ℚ) ≤ 0 := by norm_num
    exact max_le this h

/-- C1 counterexample: a high final score is mapped to `doomed`, not
`faithful` — with the default thresholds, `determineVerdictType 10` falls
through both the `[-2, 2]` faithful band and the `[-5, 5]` borderline band
into the `else` branch. -/
theorem C1_counterexample :
    determineVerdictType defaultThresholds 10 = VerdictType.doomed := by
  unfold determineVerdictType defaultThresholds
  norm_num

/-- C1 (amended): with the default thresholds the selector is total and
assigns exactly one category to every score, but the regions are:
`faithful` is the middle band `[-2, 2]`, `borderline` is the surrounding
band `[-5, -2) ∪ (2, 5]`, and `doomed` is everything outside `[-5, 5]` —
both scores below `-5` and scores above `5`. -/
theorem C1_verdict_regions (s : ℚ) :
    (determineVerdictType defaultThresholds s = VerdictType.faithful ↔
      -2 ≤ s ∧ s ≤ 2) ∧
    (determineVerdictType defaultThresholds s = VerdictType.borderline ↔
      (-5 ≤ s ∧ s < -2) ∨ (2 < s ∧ s ≤ 5)) ∧
    (determineVerdictType defaultThresholds s = VerdictType.doomed ↔
      s < -5 ∨ 5 < s) := by
  unfold determineVerdictType defaultThresholds
  dsimp only
  split_ifs with h1 h2
  · obtain ⟨ha, hb⟩ := h1
    refine ⟨by simpa using And.intro ha hb, ?_, ?_⟩
    · simp only [reduceCtorEq, false_iff]
      rintro (⟨h3, h4⟩ | ⟨h3, h4⟩) <;> linarith
    · simp only [reduceCtorEq, false_iff]
      rintro (h3 | h3) <;> linarith
  · obtain ⟨h2a, h2b⟩ := h2
    have h1' : s < -2 ∨ 2 < s := by
      by_contra hc
      push_neg at hc
      exact h1 ⟨hc.1, hc.2⟩
    refine ⟨?_, ?_, ?_⟩
    · simp only [reduceCtorEq, false_iff]
      rintro ⟨ha, hb⟩
      rcases h1' with h | h <;> linarith
    · simp only [true_iff]
      rcases h1' with h | h
      · exact Or.inl ⟨h2a, h⟩
      · exact Or.inr ⟨h, h2b⟩
    · simp only [reduceCtorEq, false_iff]
      rintro (h | h) <;> linarith
  · have h2' : s < -5 ∨ 5 < s := by
      by_contra hc
      push_neg at hc
      exact h2 ⟨hc.1, hc.2⟩
    refine ⟨?_, ?_, ?_⟩
    · simp only [reduceCtorEq, false_iff]
      rintro ⟨ha, hb⟩
      rcases h2' with h | h <;> linarith
    · simp only [reduceCtorEq, false_iff]
      rintro (⟨ha, hb⟩ | ⟨ha, hb⟩) <;> rcases h2' with h | h <;> linarith
    · simpa using h2'

theorem swapIdx_perm (l : List α) (i j : Nat) : (swapIdx l i j).Perm l := by
  unfold swapIdx
  cases hi : l[i]? with
  | none => exact List.Perm.refl l
  | some a =>
    cases hj : l[j]? with
    | none => exact List.Perm.refl l
    | some b =>
      obtain ⟨hi', ha⟩ := List.getElem?_eq_some_iff.mp hi
      obtain ⟨hj', hb⟩ := List.getElem?_eq_some_iff.mp hj
      classical
      show ((l.set i b).set j a).Perm l
      rw [List.perm_iff_count]
      intro x
      have hj'' : j < (l.set i b).length := by simpa using hj'
      have hmem_i : l[i] ∈ l := List.getElem_mem hi'
      have hcount_i : (if l[i] = x then 1 else 0) ≤ l.count x := by
        split_ifs with h
        · exact List.one_le_count_iff.mpr (h ▸ hmem_i)
        · exact Nat.zero_le _
      by_cases hij : i = j
      · subst hij
        have hab : a = b := ha.symm.trans hb
        subst hab
        rw [List.set_set, List.count_set a x l i hi']
        simp only [beq_iff_eq]
        rw [ha] at hcount_i ⊢
        split_ifs at hcount_i ⊢ with h <;> omega
      · have hset : (l.set i b)[j] = l[j] := List.getElem_set_ne hij hj''
        rw [List.count_set a x (l.set i b) j hj'', List.count_set b x l i hi', hset]
        simp only [beq_iff_eq]
        rw [ha] at hcount_i ⊢
        rw [hb]
        split_ifs at hcount_i ⊢ with h1 h2 <;> omega

theorem fisherYatesAux_perm (rand : Nat → Nat) :
    ∀ (i : Nat) (l : List α), (fisherYatesAux rand i l).Perm l := by
  intro i
  induction i with
  | zero => intro l; exact List.Perm.refl l
  | succ i ih =>
    intro l
    exact (ih (swapIdx l (i + 1) (rand (i + 1)))).trans
      (swapIdx_perm l (i + 1) (rand (i + 1)))

theorem shuffleArray_perm (rand : Nat → Nat) (l : List α) :
    (shuffleArray rand l).Perm l :=
  fisherYatesAux_perm rand (l.length - 1) l

/-- C6: for every non-empty input list and every sequence of random draws,
the Fisher-Yates `shuffleArray` returns a permutation of its input: the same
multiset of elements and the same length. -/
theorem C6_shuffle_permutation (l : List α) (rand : Nat → Nat) (_hne : l ≠ []) :
    (shuffleArray rand l).Perm l ∧ (shuffleArray rand l).length = l.length := by
  refine ⟨shuffleArray_perm rand l, (shuffleArray_perm rand l).length_eq⟩

/-- C6 witness: a concrete three-element shuffle with draws `j = 0`
evaluates to a permutation of the input. -/
theorem C6_shuffle_permutation_witness :
    ([1, 2, 3] : List Nat) ≠ [] ∧
      (shuffleArray (fun _ => 0) [1, 2, 3]).Perm [1, 2, 3] ∧
      (shuffleArray (fun _ => 0) [1, 2, 3]).length = ([1, 2, 3] : List Nat).length :=
  ⟨by decide, C6_shuffle_permutation [1, 2, 3] (fun _ => 0) (by decide)⟩

theorem processAnswerEntries_offendedSet_mono (q : CMQuestion) (a : Answer) :
    ∀ (entries : List (String × ReactionMap)) (s : CMState) (id : String),
      id ∈ s.offendedSet → id ∈ (processAnswerEntries q a s entries).1.offendedSet := by
  intro entries
  induction entries with
  | nil => intro s id h; simpa [processAnswerEntries] using h
  | cons e rest ih =>
    intro s id h
    obtain ⟨councilId, rm⟩ := e
    simp only [processAnswerEntries]
    cases hf : s.councils.find? (fun c => c.id == councilId) with
    | none => exact ih s id h
    | some c =>
      dsimp only
      apply ih
      dsimp only
      split
      · exact List.mem_append_left _ h
      · exact h

theorem processAnswerEntries_no_rereport (q : CMQuestion) (a : Answer) (id : String) :
    ∀ (entries : List (String × ReactionMap)) (s : CMState),
      id ∈ s.offendedSet → id ∉ (processAnswerEntries q a s entries).2 := by
  intro entries
  induction entries with
  | nil => intro s h; simp [processAnswerEntries]
  | cons e rest ih =>
    intro s h
    obtain ⟨councilId, rm⟩ := e
    simp only [processAnswerEntries]
    cases hf : s.councils.find? (fun c => c.id == councilId) with
    | none => exact ih s h
    | some c =>
      dsimp only
      intro hmem
      rcases List.mem_append.mp hmem with hleft | hright
      · by_cases hid : id = councilId
        · subst hid
          have hcontains : s.offendedSet.contains id = true := by
            simpa using h
          simp [hcontains] at hleft
          exact hleft.2 h
        · split at hleft
          · simp at hleft
            exact hid hleft
          · simp at hleft
      · have hmem' : id ∈ (CMState.mk (updateCouncil s.councils
            (processCouncilReaction s.offendedSet c (entryScore q a rm)).1)
            (if ((processCouncilReaction s.offendedSet c (entryScore q a rm)).2.offended
                  && !(s.offendedSet.contains councilId)) = true
             then s.offendedSet ++ [councilId] else s.offendedSet)).offendedSet := by
          dsimp only
          split
          · exact List.mem_append_left _ h
          · exact h
        exact ih _ hmem' hright

theorem processAnswerEntries_report_transition (q : CMQuestion) (a : Answer) (id : String) :
    ∀ (entries : List (String × ReactionMap)) (s : CMState),
      id ∈ (processAnswerEntries q a s entries).2 →
        id ∉ s.offendedSet ∧ id ∈ (processAnswerEntries q a s entries).1.offendedSet := by
  intro entries
  induction entries with
  | nil => intro s h; simp [processAnswerEntries] at h
  | cons e rest ih =>
    intro s h
    obtain ⟨councilId, rm⟩ := e
    simp only [processAnswerEntries] at h ⊢
    cases hf : s.councils.find? (fun c => c.id == councilId) with
    | none =>
      rw [hf] at h
      exact ih s h
    | some c =>
      rw [hf] at h
      dsimp only at h ⊢
      rcases List.mem_append.mp h with hleft | hright
      · by_cases hcond : ((processCouncilReaction s.offendedSet c (entryScore q a rm)).2.offended
            && !(s.offendedSet.contains councilId)) = true
        · rw [if_pos hcond] at hleft
          have hid : id = councilId := by simpa using hleft
          subst hid
          have hnotin : id ∉ s.offendedSet := by
            have h2 := (Bool.and_eq_true _ _ |>.mp hcond).2
            simp at h2
            simpa using h2
          refine ⟨hnotin, ?_⟩
          apply processAnswerEntries_offendedSet_mono
          rw [if_pos hcond]
          exact List.mem_append_right _ (by simp)
        · rw [if_neg hcond] at hleft
          simp at hleft
      · have hres := ih _ hright
        refine ⟨?_, hres.2⟩
        intro hin
        apply hres.1
        split
        · exact List.mem_append_left _ hin
        · exact hin

theorem processAnswer_offendedSet_mono (s : CMState) (q : CMQuestion) (a : Answer)
    (id : String) (h : id ∈ s.offendedSet) : id ∈ (processAnswer s q a).1.offendedSet := by
  unfold processAnswer
  cases q.councils with
  | none => exact h
  | some entries => exact processAnswerEntries_offendedSet_mono q a entries s id h

theorem processAnswer_no_rereport (s : CMState) (q : CMQuestion) (a : Answer)
    (id : String) (h : id ∈ s.offendedSet) : id ∉ (processAnswer s q a).2 := by
  intro hmem
  unfold processAnswer at hmem
  cases hc : q.councils with
  | none => rw [hc] at hmem; simp at hmem
  | some entries =>
    rw [hc] at hmem
    exact processAnswerEntries_no_rereport q a id entries s h hmem

theorem processAnswer_report_transition (s : CMState) (q : CMQuestion) (a : Answer)
    (id : String) (h : id ∈ (processAnswer s q a).2) :
    id ∉ s.offendedSet ∧ id ∈ (processAnswer s q a).1.offendedSet := by
  unfold processAnswer at h ⊢
  cases hc : q.councils with
  | none => rw [hc] at h; simp at h
  | some entries =>
    rw [hc] at h
    exact processAnswerEntries_report_transition q a id entries s h

theorem runAnswers_offendedSet_mono (id : String) :
    ∀ (qas : List (CMQuestion × Answer)) (s : CMState),
      id ∈ s.offendedSet → id ∈ (runAnswers s qas).1.offendedSet := by
  intro qas
  induction qas with
  | nil => intro s h; simpa [runAnswers] using h
  | cons qa rest ih =>
    intro s h
    obtain ⟨q, a⟩ := qa
    simp only [runAnswers]
    exact ih _ (processAnswer_offendedSet_mono s q a id h)

theorem runAnswers_no_rereport (id : String) :
    ∀ (qas : List (CMQuestion × Answer)) (s : CMState),
      id ∈ s.offendedSet →
        (runAnswers s qas).2.countP (fun out => decide (id ∈ out)) = 0 := by
  intro qas
  induction qas with
  | nil => intro s _; simp [runAnswers]
  | cons qa rest ih =>
    intro s h
    obtain ⟨q, a⟩ := qa
    simp only [runAnswers, List.countP_cons]
    have h1 : decide (id ∈ (processAnswer s q a).2) = false := by
      simpa using processAnswer_no_rereport s q a id h
    rw [h1]
    simp only [Bool.false_eq_true, if_false]
    have h2 := ih _ (processAnswer_offendedSet_mono s q a id h)
    omega

theorem runAnswers_report_at_most_once (id : String) :
    ∀ (qas : List (CMQuestion × Answer)) (s : CMState),
      (runAnswers s qas).2.countP (fun out => decide (id ∈ out)) ≤ 1 := by
  intro qas
  induction qas with
  | nil => intro s; simp [runAnswers]
  | cons qa rest ih =>
    intro s
    obtain ⟨q, a⟩ := qa
    simp only [runAnswers, List.countP_cons]
    by_cases hmem : id ∈ (processAnswer s q a).2
    · have htrans := processAnswer_report_transition s q a id hmem
      have hrest := runAnswers_no_rereport id rest _ htrans.2
      simp [hmem, hrest]
    · have h1 : decide (id ∈ (processAnswer s q a).2) = false := by simpa using hmem
      rw [h1]
      simp only [Bool.false_eq_true, if_false]
      have h2 := ih (processAnswer s q a).1
      omega

/-- C4: a council id is returned by `processAnswer` only on the call where
it enters `offendedCouncils` (it was not in the set before the call and is
in it afterwards); across any sequence of calls an id already in the set is
never reported again, and no id is reported more than once. -/
theorem C4_one_time_notification (s : CMState) (id : String) :
    (∀ (q : CMQuestion) (a : Answer), id ∈ (processAnswer s q a).2 →
        id ∉ s.offendedSet ∧ id ∈ (processAnswer s q a).1.offendedSet) ∧
    (∀ qas : List (CMQuestion × Answer), id ∈ s.offendedSet →
        (runAnswers s qas).2.countP (fun out => decide (id ∈ out)) = 0) ∧
    (∀ qas : List (CMQuestion × Answer),
        (runAnswers s qas).2.countP (fun out => decide (id ∈ out)) ≤ 1) :=
  ⟨fun q a h => processAnswer_report_transition s q a id h,
   fun qas h => runAnswers_no_rereport id qas s h,
   fun qas => runAnswers_report_at_most_once id qas s⟩

/-- C4 witness: in the Scenario-B run (tolerance 3, three offending
answers) `nicaea` is reported exactly once, and the claimed bound applies
to that run. -/
theorem C4_one_time_notification_witness :
    (runAnswers nicaeaState nicaeaCalls).2.countP (fun out => decide ("nicaea" ∈ out)) = 1 ∧
    (runAnswers nicaeaState nicaeaCalls).2.countP (fun out => decide ("nicaea" ∈ out)) ≤ 1 :=
  ⟨by decide, (C4_one_time_notification nicaeaState "nicaea").2.2 nicaeaCalls⟩

/-- C5: the offended comparison is inclusive — if after an answer is
applied a council's `offendedCount` equals its `tolerance` exactly, the
returned reaction reports it as offended (`offendedCount >= tolerance`). -/
theorem C5_inclusive_threshold (offendedSet : List String) (c : Council) (score : ℚ)
    (h : (processCouncilReaction offendedSet c score).1.offendedCount = c.tolerance) :
    (processCouncilReaction offendedSet c score).2.offended = true := by
  unfold processCouncilReaction at h ⊢
  dsimp only at h ⊢
  simp [h]

/-- C5 witness: a council with tolerance 1 receiving one offending reaction
lands exactly on the threshold and is reported offended. -/
theorem C5_inclusive_threshold_witness :
    (processCouncilReaction []
        { id := "x", tolerance := 1, offendedCount := 0, lastReaction := none }
        (-1)).1.offendedCount =
      ({ id := "x", tolerance := 1, offendedCount := 0, lastReaction := none } : Council).tolerance ∧
    (processCouncilReaction []
        { id := "x", tolerance := 1, offendedCount := 0, lastReaction := none }
        (-1)).2.offended = true :=
  ⟨by decide,
   C5_inclusive_threshold []
     { id := "x", tolerance := 1, offendedCount := 0, lastReaction := none }
     (-1) (by decide)⟩

/-- C8: the offended set only grows — an id in `offendedCouncils` survives
every later `processAnswer` call (whatever the scores do to the counts),
and only the explicit `reset` empties the set. -/
theorem C8_offended_set_monotone (s : CMState) (qas : List (CMQuestion × Answer)) :
    (∀ id ∈ s.offendedSet, id ∈ (runAnswers s qas).1.offendedSet) ∧
    (councilReset s).offendedSet = [] :=
  ⟨fun id h => runAnswers_offendedSet_mono id qas s h, rfl⟩

/-- C8 witness: after a correct answer drops `x`'s count back to 0 (below
its tolerance of 1), `x` is still in the offended set; reset clears it. -/
theorem C8_offended_set_monotone_witness :
    ((runAnswers dropState dropCalls).1.councils.map Council.offendedCount = [0]) ∧
    "x" ∈ (runAnswers dropState dropCalls).1.offendedSet ∧
    (councilReset dropState).offendedSet = [] :=
  ⟨by decide,
   (C8_offended_set_monotone dropState dropCalls).1 "x" (by decide),
   (C8_offended_set_monotone dropState dropCalls).2⟩

/-- C2 counterexample: an incorrect answer to a 3-point question yields
reaction score `-3`, yet `processCouncilReaction` increments the council's
offense counter by exactly 1, not by the question's 3 offense points. -/
theorem C2_counterexample :
    qmIsCorrect c2Question (Answer.str "No") = false ∧
    effectiveHeresyPoints c2Question = 3 ∧
    (calculateCouncilReactions c2Question (Answer.str "No")).map (fun p => p.2.score) = [-3] ∧
    (processCouncilReaction [] c2Council (-3)).1.offendedCount = c2Council.offendedCount + 1 ∧
    (processCouncilReaction [] c2Council (-3)).1.offendedCount ≠ c2Council.offendedCount + 3 := by
  refine ⟨by decide, by decide, ?_, by decide, by decide⟩
  have hne : c2Question.council ≠ "" := by decide
  unfold calculateCouncilReactions
  rw [if_neg hne]
  dsimp only
  have h1 : qmIsCorrect c2Question (Answer.str "No") = false := by decide
  have h2 : effectiveHeresyPoints c2Question = 3 := by decide
  rw [h1, h2]
  norm_num

/-- C2 (amended): for a question with an associated council and positive
effective offense points, an incorrect answer produces a negative reaction
score and increments the council's `offendedCount` by exactly 1 (the
offense points scale only the score's magnitude, not the counter delta); a
correct answer produces a positive score and decrements the counter by
exactly 1 when it is positive, leaving it unchanged otherwise; a
non-negative counter stays non-negative. -/
theorem C2_offense_counter_delta (q : QuestionQM) (ans : Answer)
    (offendedSet : List String) (c : Council)
    (hq : q.council ≠ "") (hp : 0 < effectiveHeresyPoints q) :
    calculateCouncilReactions q ans ≠ [] ∧
    ∀ p ∈ calculateCouncilReactions q ans,
      (qmIsCorrect q ans = false →
        p.2.score < 0 ∧
        (processCouncilReaction offendedSet c p.2.score).1.offendedCount
          = c.offendedCount + 1) ∧
      (qmIsCorrect q ans = true →
        0 < p.2.score ∧
        (0 < c.offendedCount →
          (processCouncilReaction offendedSet c p.2.score).1.offendedCount
            = c.offendedCount - 1) ∧
        (c.offendedCount ≤ 0 →
          (processCouncilReaction offendedSet c p.2.score).1.offendedCount
            = c.offendedCount)) ∧
      (0 ≤ c.offendedCount →
        0 ≤ (processCouncilReaction offendedSet c p.2.score).1.offendedCount) := by
  unfold calculateCouncilReactions
  rw [if_neg hq]
  refine ⟨by simp, ?_⟩
  intro p hmem
  simp only [List.mem_singleton] at hmem
  subst hmem
  dsimp only
  unfold processCouncilReaction
  dsimp only
  rcases Bool.eq_false_or_eq_true (qmIsCorrect q ans) with hcor | hcor
  case inr =>
    have hscore : (if qmIsCorrect q ans = true then (1 : ℚ) else -1) * effectiveHeresyPoints q
        = -effectiveHeresyPoints q := by
      rw [hcor]
      simp
    have hneg : (if qmIsCorrect q ans = true then (1 : ℚ) else -1) * effectiveHeresyPoints q
        < 0 := by
      rw [hscore]; linarith
    refine ⟨?_, ?_, ?_⟩
    · intro _
      refine ⟨hneg, ?_⟩
      unfold updatedOffendedCount
      rw [if_pos hneg]
    · intro hcontra
      rw [hcontra] at hcor
      cases hcor
    · intro hnn
      unfold updatedOffendedCount
      rw [if_pos hneg]
      omega
  case inl =>
    have hscore : (if qmIsCorrect q ans = true then (1 : ℚ) else -1) * effectiveHeresyPoints q
        = effectiveHeresyPoints q := by
      rw [hcor]
      simp
    have hpos : (0 : ℚ) < (if qmIsCorrect q ans = true then (1 : ℚ) else -1)
        * effectiveHeresyPoints q := by
      rw [hscore]; linarith
    refine ⟨?_, ?_, ?_⟩
    · intro hcontra
      rw [hcontra] at hcor
      cases hcor
    · intro _
      refine ⟨hpos, ?_, ?_⟩
      · intro hcount
        unfold updatedOffendedCount
        rw [if_neg (by linarith), if_pos ⟨hpos, hcount⟩]
        omega
      · intro hcount
        unfold updatedOffendedCount
        rw [if_neg (by linarith), if_neg (by intro hc; omega)]
    · intro hnn
      unfold updatedOffendedCount
      rw [if_neg (by linarith)]
      split
      · omega
      · omega

/-- C2 witness: the amended statement applied to the concrete 3-point
question, an incorrect answer, and the concrete council. -/
theorem C2_offense_counter_delta_witness :
    calculateCouncilReactions c2Question (Answer.str "No") ≠ [] ∧
    ∀ p ∈ calculateCouncilReactions c2Question (Answer.str "No"),
      (qmIsCorrect c2Question (Answer.str "No") = false →
        p.2.score < 0 ∧
        (processCouncilReaction [] c2Council p.2.score).1.offendedCount
          = c2Council.offendedCount + 1) ∧
      (qmIsCorrect c2Question (Answer.str "No") = true →
        0 < p.2.score ∧
        (0 < c2Council.offendedCount →
          (processCouncilReaction [] c2Council p.2.score).1.offendedCount
            = c2Council.offendedCount - 1) ∧
        (c2Council.offendedCount ≤ 0 →
          (processCouncilReaction [] c2Council p.2.score).1.offendedCount
            = c2Council.offendedCount)) ∧
      (0 ≤ c2Council.offendedCount →
        0 ≤ (processCouncilReaction [] c2Council p.2.score).1.offendedCount) :=
  C2_offense_counter_delta c2Question (Answer.str "No") [] c2Council
    (by decide) (by decide)

theorem getFreshQuestions_nil_used (pool : List String) (difficulty : String) :
    getFreshQuestions pool difficulty [] = pool := by
  unfold getFreshQuestions
  simp

/-- C3: when `beginSession` finds no eligible questions but the pool is
non-empty and the used set was non-empty, the used set is cleared, the
returned queue covers the whole pool, and `poolWasReset` is `true`; on a
first session (empty used set) the flag stays `false`. -/
theorem C3_pool_reset (rand : Nat → Nat) (pool : List String) (difficulty : String)
    (used : List String) :
    ((getFreshQuestions pool difficulty used).isEmpty = true → pool ≠ [] → used ≠ [] →
      (beginSession rand pool difficulty used).queue.length = pool.length ∧
      (beginSession rand pool difficulty used).used = [] ∧
      (beginSession rand pool difficulty used).poolWasReset = true) ∧
    (used = [] → (beginSession rand pool difficulty used).poolWasReset = false) := by
  constructor
  · intro hempty hpool hused
    have hnp : pool.isEmpty = false := by
      cases pool with
      | nil => exact absurd rfl hpool
      | cons x xs => rfl
    have h0 : 0 < used.length := by
      cases used with
      | nil => exact absurd rfl hused
      | cons x xs => simp
    have hqlen : (shuffleArray rand pool).length = pool.length :=
      (shuffleArray_perm rand pool).length_eq
    unfold beginSession
    simp [hempty, hnp, getFreshQuestions_nil_used, hqlen, h0]
  · intro h
    subst h
    unfold beginSession
    simp

/-- C3 witness: a one-question pool whose only question is already used —
the session triggers the reset path with a full-size queue and a raised
flag. -/
theorem C3_pool_reset_witness :
    (beginSession (fun _ => 0) ["1"] "easy" ["easy_1"]).queue.length
        = (["1"] : List String).length ∧
    (beginSession (fun _ => 0) ["1"] "easy" ["easy_1"]).used = [] ∧
    (beginSession (fun _ => 0) ["1"] "easy" ["easy_1"]).poolWasReset = true :=
  (C3_pool_reset (fun _ => 0) ["1"] "easy" ["easy_1"]).1 (by decide) (by decide) (by decide)

theorem builtin_filter_valid :
    getBuiltInQuestions.filter validQuestion = getBuiltInQuestions := by rfl

theorem lengthTakeBranch_pos (m : Nat) (l : List QuestionQM) (hl : 0 < l.length) :
    0 < (if m ≠ 0 ∧ m < l.length then l.take m else l).length := by
  split
  · rename_i h
    rw [List.length_take]
    omega
  · exact hl

theorem processQuestions_builtin_nonempty (cfg : QMConfig) (rand : Nat → Nat) :
    0 < (processQuestions cfg rand getBuiltInQuestions).length := by
  unfold processQuestions
  rw [builtin_filter_valid]
  dsimp only
  apply lengthTakeBranch_pos
  split
  · rw [(shuffleArray_perm rand getBuiltInQuestions).length_eq]
    decide
  · decide

/-- C7: when the external question source fails (any thrown load error),
`loadQuestions` completes normally, reports the fallback marker, and the
resulting question pool — the processed built-in list — is non-empty, for
every configuration and every shuffle outcome. -/
theorem C7_load_fallback (cfg : QMConfig) (rand : Nat → Nat) (err : String) :
    (loadQuestions cfg rand (.error err)).2 = true ∧
    0 < (loadQuestions cfg rand (.error err)).1.length := by
  constructor
  · rfl
  · exact processQuestions_builtin_nonempty cfg rand

theorem b64Index_b64Char : ∀ s : Fin 64, b64Index (b64Char s.val) = s.val := by decide

theorem b64Char_ne_61 : ∀ s : Fin 64, b64Char s.val ≠ 61 := by decide

theorem b64_roundtrip : ∀ (l : List Nat), (∀ c ∈ l, c < 256) →
    b64DecodeChars (b64EncodeBytes l) = l
  | [], _ => rfl
  | [a], h => by
    have ha : a < 256 := h a (by simp)
    have i1 : b64Index (b64Char (a / 4)) = a / 4 := b64Index_b64Char ⟨a / 4, by omega⟩
    have i2 : b64Index (b64Char (a % 4 * 16)) = a % 4 * 16 :=
      b64Index_b64Char ⟨a % 4 * 16, by omega⟩
    simp only [b64EncodeBytes, b64DecodeChars, beq_self_eq_true, if_true, i1, i2]
    congr 1
    omega
  | [a, b], h => by
    have ha : a < 256 := h a (by simp)
    have hb : b < 256 := h b (by simp)
    have n3 : (b64Char (b % 16 * 4) == 61) = false := by
      simpa using b64Char_ne_61 ⟨b % 16 * 4, by omega⟩
    have i1 : b64Index (b64Char (a / 4)) = a / 4 := b64Index_b64Char ⟨a / 4, by omega⟩
    have i2 : b64Index (b64Char (a % 4 * 16 + b / 16)) = a % 4 * 16 + b / 16 :=
      b64Index_b64Char ⟨a % 4 * 16 + b / 16, by omega⟩
    have i3 : b64Index (b64Char (b % 16 * 4)) = b % 16 * 4 :=
      b64Index_b64Char ⟨b % 16 * 4, by omega⟩
    simp only [b64EncodeBytes, b64DecodeChars, n3, Bool.false_eq_true, if_false,
      beq_self_eq_true, if_true, i1, i2, i3]
    congr 1
    · omega
    · congr 1
      omega
  | a :: b :: c :: rest, h => by
    have ha : a < 256 := h a (by simp)
    have hb : b < 256 := h b (by simp)
    have hc : c < 256 := h c (by simp)
    have n3 : (b64Char (b % 16 * 4 + c / 64) == 61) = false := by
      simpa using b64Char_ne_61 ⟨b % 16 * 4 + c / 64, by omega⟩
    have n4 : (b64Char (c % 64) == 61) = false := by
      simpa using b64Char_ne_61 ⟨c % 64, by omega⟩
    have i1 : b64Index (b64Char (a / 4)) = a / 4 := b64Index_b64Char ⟨a / 4, by omega⟩
    have i2 : b64Index (b64Char (a % 4 * 16 + b / 16)) = a % 4 * 16 + b / 16 :=
      b64Index_b64Char ⟨a % 4 * 16 + b / 16, by omega⟩
    have i3 : b64Index (b64Char (b % 16 * 4 + c / 64)) = b % 16 * 4 + c / 64 :=
      b64Index_b64Char ⟨b % 16 * 4 + c / 64, by omega⟩
    have i4 : b64Index (b64Char (c % 64)) = c % 64 := b64Index_b64Char ⟨c % 64, by omega⟩
    have ih := b64_roundtrip rest (fun x hx => h x (by simp at hx ⊢; tauto))
    simp only [b64EncodeBytes, b64DecodeChars, n3, n4, Bool.false_eq_true, if_false,
      i1, i2, i3, i4]
    rw [ih]
    congr 1
    · omega
    · congr 1
      · omega
      · congr 1
        omega

theorem keyCodeAt_lt (key : List Nat) (hkb : ∀ c ∈ key, c < 256) (i : Nat) :
    keyCodeAt key i < 256 := by
  unfold keyCodeAt
  cases hg : key[i % key.length]? with
  | none => simp [List.getD, hg]
  | some v =>
    have hv : v ∈ key := List.getElem?_mem hg
    simpa [List.getD, hg] using hkb v hv

theorem xorCycle_lt (key : List Nat) (hkb : ∀ c ∈ key, c < 256) :
    ∀ (s : List Nat) (i : Nat), (∀ c ∈ s, c < 256) →
      ∀ c ∈ xorCycle key i s, c < 256 := by
  intro s
  induction s with
  | nil => intro i _ c hc; simp [xorCycle] at hc
  | cons x rest ih =>
    intro i hs c hc
    simp only [xorCycle, List.mem_cons] at hc
    rcases hc with hc | hc
    · subst hc
      have hx : x < 256 := hs x (by simp)
      have hk : keyCodeAt key i < 256 := keyCodeAt_lt key hkb i
      have h256 : (256 : Nat) = 2 ^ 8 := by norm_num
      rw [h256] at hx hk ⊢
      exact Nat.xor_lt_two_pow hx hk
    · exact ih (i + 1) (fun y hy => hs y (by simp [hy])) c hc

theorem xorCycle_involutive (key : List Nat) :
    ∀ (s : List Nat) (i : Nat), xorCycle key i (xorCycle key i s) = s := by
  intro s
  induction s with
  | nil => intro i; rfl
  | cons x rest ih =>
    intro i
    simp only [xorCycle]
    rw [ih (i + 1)]
    congr 1
    exact Nat.xor_cancel_right _ _

/-- C9 counterexample: with the non-empty key `"k"` (code 107) and a
serialized state containing the single code unit 20013 (the character 中,
which a JSON-serializable state can contain), the XOR output 20038 exceeds
the Latin-1 range, `btoa` throws, and `encrypt` produces no value at all —
so `decrypt (encrypt data)` does not recover the data. -/
theorem C9_counterexample :
    (encrypt [107] [20013]).map (decrypt [107]) ≠
      some (DecryptedData.parsed [20013]) := by decide

/-- C9 (amended): for every non-empty key and serialized state text whose
code units are all below 256 (Latin-1), `decrypt` inverts `encrypt`: the
XOR-plus-base64 pipeline returns exactly the serialized text that
`JSON.parse` then turns back into the original data.  (Without the
Latin-1 restriction `btoa` throws, as the counterexample shows.) -/
theorem C9_encrypt_decrypt_roundtrip (key s : List Nat) (hk : key ≠ [])
    (hkb : ∀ c ∈ key, c < 256) (hsb : ∀ c ∈ s, c < 256) :
    (encrypt key s).map (decrypt key) = some (DecryptedData.parsed s) := by
  have hne : key.isEmpty = false := by
    cases key with
    | nil => exact absurd rfl hk
    | cons x xs => rfl
  unfold encrypt
  rw [hne]
  simp only [Bool.false_eq_true, if_false]
  have hxlt : ∀ c ∈ xorCycle key 0 s, c < 256 := xorCycle_lt key hkb s 0 hsb
  unfold btoa
  rw [if_pos hxlt]
  simp only [Option.map_some']
  unfold decrypt
  rw [hne]
  simp only [Bool.false_eq_true, if_false]
  unfold atob
  rw [b64_roundtrip (xorCycle key 0 s) hxlt, xorCycle_involutive key s 0]

/-- C9 witness: the amended round-trip evaluated at the key `"k"` and the
three-byte serialized text `"a"` (codes 34, 97, 34). -/
theorem C9_encrypt_decrypt_roundtrip_witness :
    (encrypt [107] [34, 97, 34]).map (decrypt [107])
      = some (DecryptedData.parsed [34, 97, 34]) :=
  C9_encrypt_decrypt_roundtrip [107] [34, 97, 34] (by decide) (by decide) (by decide)
